import Mathlib

/-!
Shallow embedding of the calory-bot LINE chatbot (`app.py`) and proofs about
its message routing, daily summary aggregation, article lookup, calorie reply
formatting, quiz state machine and webhook callback.

String methods of Python (`upper`, `isdigit`, `startswith`, `endswith`,
`rstrip`, `int()`) are modelled at the ASCII level on the underlying
character lists; the external services (LINE profile API, OpenAI, Supabase)
are modelled by explicit parameters: the LLM as a `String → Except String
String` outcome function, the `quiz_progress` table as an association list
threaded through the functions, and side effects as an explicit trace.
-/

namespace CaloryBot

/-! ## Python string-method models -/

/-- Model of Python `str.upper()` (ASCII letters). -/
def pyUpper (s : String) : String := ⟨s.data.map Char.toUpper⟩

/-- Model of Python `str.lower()` (ASCII letters). -/
def pyLower (s : String) : String := ⟨s.data.map Char.toLower⟩

/-- Model of Python `str.isdigit()` (ASCII digits): nonempty and all digits. -/
def pyIsDigit (s : String) : Bool := !s.data.isEmpty && s.data.all Char.isDigit

/-- Model of Python `str.startswith(p)`. -/
def pyStartsWith (s p : String) : Bool := p.data.isPrefixOf s.data

/-- Model of Python `str.endswith(p)`. -/
def pyEndsWith (s p : String) : Bool := p.data.isSuffixOf s.data

/-- Python whitespace characters (ASCII range). -/
def pyIsSpace (c : Char) : Bool :=
  c = ' ' || c = '\t' || c = '\n' || c = '\r' || c = '\x0b' || c = '\x0c'

/-- Model of Python `str.rstrip()`. -/
def pyRstrip (s : String) : String := ⟨(s.data.reverse.dropWhile pyIsSpace).reverse⟩

/-- Model of Python `str.strip()`. -/
def pyStrip (s : String) : String :=
  ⟨((s.data.dropWhile pyIsSpace).reverse.dropWhile pyIsSpace).reverse⟩

/-- Decimal value of a digit list. -/
def digitsVal (l : List Char) : Nat := l.foldl (fun acc c => 10 * acc + (c.toNat - 48)) 0

/-- Value of `int(s)` on a string that passed `isdigit()`. -/
def strToInt (s : String) : Int := (digitsVal s.data : Nat)

/-- Replace-all loop over a character list, fuelled by the list length
(each step consumes at least one character when the pattern is nonempty). -/
def replaceFuel (pat rep : List Char) : Nat → List Char → List Char
  | _, [] => []
  | 0, l => l
  | fuel + 1, c :: rest =>
      if pat.isPrefixOf (c :: rest) then
        rep ++ replaceFuel pat rep fuel (List.drop (pat.length - 1) rest)
      else c :: replaceFuel pat rep fuel rest

/-- Model of Python `s.replace(pat, rep)` for a nonempty pattern: replace
every non-overlapping occurrence, scanning left to right. -/
def pyReplace (s pat rep : String) : String :=
  ⟨replaceFuel pat.data rep.data s.data.length s.data⟩

/-- Model of Python `int(s)` (ASCII): strips whitespace, allows one sign,
then requires a nonempty run of digits; `none` models `ValueError`. -/
def pyInt? (s : String) : Option Int :=
  match (pyStrip s).data with
  | [] => none
  | c :: rest =>
      if c = '+' then
        if !rest.isEmpty && rest.all Char.isDigit then some ((digitsVal rest : Nat) : Int)
        else none
      else if c = '-' then
        if !rest.isEmpty && rest.all Char.isDigit then some (-((digitsVal rest : Nat) : Int))
        else none
      else if (c :: rest).all Char.isDigit then some ((digitsVal (c :: rest) : Nat) : Int)
      else none

/-! ## Data model -/

/-- One row of the `message_logs` table as used by `get_daily_summary`. -/
structure LogEntry where
  user_name : String
  message : String
deriving DecidableEq

/-- One entry of `articles.json`. -/
structure Article where
  id : Int
  date : String
  title : String
  content : String
deriving DecidableEq

/-- One row of the `quizzes` table. -/
structure Quiz where
  id : Int
  question : String
  choice_a : String
  choice_b : String
  choice_c : String
  correct_answer : String
  explanation : String
deriving DecidableEq

/-- One row of the `quiz_progress` table (ints are Python ints). -/
structure ProgressRecord where
  current_quiz_id : Int
  correct_count : Int
  total_count : Int
deriving DecidableEq

/-- The `quiz_progress` table keyed by `user_id`. -/
abbrev ProgressTable := List (String × ProgressRecord)

/-- `select('*').eq('user_id', uid)` returning the first matching row. -/
def getRow : ProgressTable → String → Option ProgressRecord
  | [], _ => none
  | r :: rest, uid => if r.1 = uid then some r.2 else getRow rest uid

/-- `update({...}).eq('user_id', uid)`: rewrite every row whose key matches. -/
def updateRows : ProgressTable → String → (ProgressRecord → ProgressRecord) → ProgressTable
  | [], _, _ => []
  | r :: rest, uid, f =>
      (if r.1 = uid then (r.1, f r.2) else r) :: updateRows rest uid f

/-! ## Daily summary (`get_daily_summary`) -/

/-- One step of the `message_counts[msg] = message_counts.get(msg, 0) + 1`
loop: increment an existing key in place, else append a fresh key at the end
(Python dicts keep insertion order). -/
def incr : List (String × Nat) → String → List (String × Nat)
  | [], m => [(m, 1)]
  | (k, v) :: rest, m =>
      if k = m then (k, v + 1) :: rest else (k, v) :: incr rest m

/-- The `message_counts` dict after the counting loop. -/
def message_counts (msgs : List String) : List (String × Nat) :=
  msgs.foldl incr []

/-- `sorted(message_counts.items(), key=lambda x: x[1], reverse=True)`:
a stable sort, descending by count (a stable sort for a fixed total
preorder has a unique result, so insertion sort models Python's sort). -/
def sortedCounts (msgs : List String) : List (String × Nat) :=
  (message_counts msgs).insertionSort (fun a b => b.2 ≤ a.2)

/-- `popular`: the first three entries of the sorted counts. -/
def popularOf (msgs : List String) : List (String × Nat) :=
  (sortedCounts msgs).take 3

/-- `f"{msg}({count}件)"`. -/
def popularItemText (p : String × Nat) : String :=
  p.1 ++ "(" ++ toString p.2 ++ "件)"

/-- `get_daily_summary` on the log rows returned for today. -/
def get_daily_summary (logs : List LogEntry) : String :=
  if logs.isEmpty then "本日の利用はありませんでした。"
  else
    let total_count := logs.length
    let user_count := ((logs.map LogEntry.user_name).dedup).length
    let popular_text :=
      String.intercalate "、" ((popularOf (logs.map LogEntry.message)).map popularItemText)
    "📊 本日の利用状況\n\n利用回数: " ++ toString total_count ++ "件\nユーザー数: "
      ++ toString user_count ++ "人\n人気: " ++ popular_text

/-! ## Calorie lookup (`get_calorie_info`) -/

/-- `get_calorie_info`, with the OpenAI call outcome passed in:
`Except.ok` is a successful response content, `Except.error` an exception. -/
def get_calorie_info (llmResult : Except String String) : String :=
  match llmResult with
  | .error e => "エラーが発生しました: " ++ e
  | .ok message =>
      if pyEndsWith (pyRstrip message) "Have a nice calory!" then message
      else pyRstrip message ++ "\n\nHave a nice calory!"

/-! ## Quiz flow -/

/-- `get_user_progress`: return the stored row, or insert and return a fresh
all-zero row; the (possibly extended) table is returned alongside. -/
def get_user_progress (t : ProgressTable) (uid : String) :
    ProgressRecord × ProgressTable :=
  match getRow t uid with
  | some p => (p, t)
  | none => (⟨0, 0, 0⟩, t ++ [(uid, ⟨0, 0, 0⟩)])

/-- `update_user_progress`. -/
def update_user_progress (t : ProgressTable) (uid : String) (quiz_id : Int)
    (is_correct : Bool) : ProgressTable :=
  let pr := get_user_progress t uid
  let new_correct := pr.1.correct_count + (if is_correct then 1 else 0)
  let new_total := pr.1.total_count + 1
  updateRows pr.2 uid (fun _ => ⟨quiz_id, new_correct, new_total⟩)

/-- `get_quiz`. -/
def get_quiz (quizzes : List Quiz) (quiz_id : Int) : Option Quiz :=
  quizzes.find? (fun q => q.id == quiz_id)

/-- `quiz[f"choice_{letter}"]`: `none` models the `KeyError` raised when the
stored `correct_answer` is not one of A, B, C. -/
def choiceFor (q : Quiz) (letter : String) : Option String :=
  if letter = "a" then some q.choice_a
  else if letter = "b" then some q.choice_b
  else if letter = "c" then some q.choice_c
  else none

/-- The `stats` line of `check_answer`. -/
def statsLine (p : ProgressRecord) : String :=
  "\n\n📊 成績: " ++ toString p.correct_count ++ "/" ++ toString p.total_count ++ "問正解"

/-- `check_answer`: returns the reply text, the quick-reply flag and the
resulting table; `none` models an uncaught `KeyError`. -/
def check_answer (quizzes : List Quiz) (t : ProgressTable) (user_id answer : String) :
    Option (String × Bool × ProgressTable) :=
  let pr := get_user_progress t user_id
  if pr.1.current_quiz_id = 0 then
    some ("まだクイズに挑戦していません。「#クイズ」と送ってね！", false, pr.2)
  else
    match get_quiz quizzes pr.1.current_quiz_id with
    | none => some ("クイズが見つかりませんでした。「#クイズ」で新しい問題に挑戦！", false, pr.2)
    | some quiz =>
        let is_correct := pyUpper answer == quiz.correct_answer
        let t2 := update_user_progress pr.2 user_id 0 is_correct
        let pr2 := get_user_progress t2 user_id
        let stats := statsLine pr2.1
        if is_correct then
          some ("⭕ 正解！\n\n" ++ quiz.explanation ++ stats, true, pr2.2)
        else
          match choiceFor quiz (pyLower quiz.correct_answer) with
          | none => none
          | some correct_text =>
              some ("❌ 残念！正解は " ++ quiz.correct_answer ++ ". " ++ correct_text
                  ++ "\n\n" ++ quiz.explanation ++ stats, true, pr2.2)

/-- `format_quiz_question`. -/
def format_quiz_question (quiz : Quiz) : String :=
  "🎯 カロリークイズ\n\n" ++ quiz.question ++ "\n\nA. " ++ quiz.choice_a ++ "\nB. "
    ++ quiz.choice_b ++ "\nC. " ++ quiz.choice_c ++ "\n\n→ A, B, C のどれかを送ってね"

/-! ## Articles -/

/-- One line of the article list, `f"[{a['id']}] {a['date']}\n{a['title']}\n\n"`. -/
def articleLine (a : Article) : String :=
  "[" ++ toString a.id ++ "] " ++ a.date ++ "\n" ++ a.title ++ "\n\n"

/-- `get_article_list`: `articles[-5:]`, shown most recent first. -/
def get_article_list (articles : List Article) : String :=
  if articles.isEmpty then "まだ記事がありません。"
  else
    ((articles.drop (articles.length - 5)).reverse.foldl
        (fun acc a => acc ++ articleLine a) "📓 開発日記\n\n")
      ++ "→ 番号を送ると詳細が見れます"

/-- The detail text of one article. -/
def articleDetailText (a : Article) : String :=
  "📝 " ++ a.title ++ "\n📅 " ++ a.date ++ "\n\n" ++ a.content

/-- `get_article_detail`: first article with the given id, formatted. -/
def get_article_detail (articles : List Article) (article_id : Int) : Option String :=
  (articles.find? (fun a => a.id == article_id)).map articleDetailText

/-! ## Message routing (`handle_message`) -/

/-- The seven conversational branches of `handle_message`. -/
inductive Mode where
  | quizStart
  | quizAnswer
  | articleList
  | caloriePrompt
  | articleDetail
  | articleOrCalorie
  | freeText
deriving DecidableEq

/-- The if/elif dispatch chain of `handle_message`. -/
def route (message_text : String) : Mode :=
  if message_text = "#クイズ" then .quizStart
  else if pyUpper message_text ∈ (["A", "B", "C"] : List String) then .quizAnswer
  else if message_text = "#開発日記" then .articleList
  else if message_text = "#カロリー" then .caloriePrompt
  else if pyStartsWith message_text "#記事" then .articleDetail
  else if pyIsDigit message_text then .articleOrCalorie
  else .freeText

/-- Observable side effects of `handle_message`, in order. -/
inductive Effect where
  | getProfile (user_id : String)
  | log (user_name user_id message : String)
  | llmCall (query : String)
  | db
  | reply (text : String)
deriving DecidableEq

/-- Whether an effect is an append to the message log. -/
def Effect.isLog : Effect → Bool
  | .log _ _ _ => true
  | _ => false

/-- The external world as seen by one `handle_message` invocation: the LINE
display name, the loaded articles, the quiz and progress tables, the LLM
outcome per query, and the outcome of `get_random_quiz`'s random/AI choice
(`aiQuiz` is the AI-generation result used when the quiz table is empty,
`pick` selects the random quiz otherwise). -/
structure MsgEnv where
  userName : String
  articles : List Article
  quizzes : List Quiz
  progress : ProgressTable
  llm : String → Except String String
  aiQuiz : Option Quiz
  pick : Nat

/-- `get_random_quiz`: AI generation when the table is empty, else a random
table row. -/
def get_random_quiz (env : MsgEnv) : Option Quiz :=
  if env.quizzes.isEmpty then env.aiQuiz
  else env.quizzes.get? (env.pick % env.quizzes.length)

/-- `start_quiz`. -/
def start_quiz (env : MsgEnv) (t : ProgressTable) (user_id : String) :
    String × ProgressTable :=
  match get_random_quiz env with
  | none => ("クイズの準備ができませんでした。しばらくしてからお試しください。", t)
  | some quiz =>
      (format_quiz_question quiz,
       updateRows t user_id (fun p => { p with current_quiz_id := quiz.id }))

/-- The `#カロリー` prompt text. -/
def caloriePromptText : String :=
  "🍽 カロリー検索\n\n気になる食材名を教えて！\n例: ラーメン、餃子、カレーライス"

/-- `handle_message`: returns the effect trace and, unless an exception
escaped, the reply text and the resulting progress table. -/
def handle_message (env : MsgEnv) (user_id message_text : String) :
    List Effect × Option (String × ProgressTable) :=
  let pre := [Effect.getProfile user_id, Effect.log env.userName user_id message_text]
  match route message_text with
  | .quizStart =>
      let r := start_quiz env env.progress user_id
      (pre ++ [.db, .reply r.1], some r)
  | .quizAnswer =>
      match check_answer env.quizzes env.progress user_id message_text with
      | some (txt, _, t2) => (pre ++ [.db, .reply txt], some (txt, t2))
      | none => (pre ++ [.db], none)
  | .articleList =>
      let txt := get_article_list env.articles
      (pre ++ [.reply txt], some (txt, env.progress))
  | .caloriePrompt =>
      (pre ++ [.reply caloriePromptText], some (caloriePromptText, env.progress))
  | .articleDetail =>
      let txt :=
        match pyInt? (pyReplace message_text "#記事" "") with
        | some article_id =>
            match get_article_detail env.articles article_id with
            | some article => article
            | none => "その記事は見つかりませんでした。"
        | none => "記事番号を指定してください。例: #記事1"
      (pre ++ [.reply txt], some (txt, env.progress))
  | .articleOrCalorie =>
      match get_article_detail env.articles (strToInt message_text) with
      | some article => (pre ++ [.reply article], some (article, env.progress))
      | none =>
          let txt := get_calorie_info (env.llm message_text)
          (pre ++ [.llmCall message_text, .reply txt], some (txt, env.progress))
  | .freeText =>
      let txt := get_calorie_info (env.llm message_text)
      (pre ++ [.llmCall message_text, .reply txt], some (txt, env.progress))

/-! ## Webhook callback -/

/-- The SDK's invalid-signature exception. -/
structure InvalidSignatureError where
  msg : String
deriving DecidableEq

/-- Exceptional outcome of `handler.handle`: either the SDK raises
`InvalidSignatureError`, or some other exception propagates out of the
synchronously dispatched `handle_message` (e.g. the `KeyError` of the quiz
choice lookup, the uncaught `ValueError` of `int()`, or a failing external
call). -/
inductive HandlerError where
  | invalidSignature (e : InvalidSignatureError)
  | other (e : String)
deriving DecidableEq

/-- The responses `/callback` can produce: `abort(400)`, a text body, or
the HTTP 500 that Flask answers when an uncaught exception propagates out
of the view function. -/
inductive HttpResponse where
  | status400
  | status500
  | body (s : String)
deriving DecidableEq

/-- `/callback`: `handler.handle` outcome in, HTTP response out. Only
`InvalidSignatureError` is caught and turned into `abort(400)`; any other
exception leaves the view uncaught and Flask responds HTTP 500. -/
def callback (handleResult : Except HandlerError Unit) : HttpResponse :=
  match handleResult with
  | .error (.invalidSignature _) => .status400
  | .error (.other _) => .status500
  | .ok _ => .body "OK"

/-! ## Reachable progress tables -/

/-- Progress tables reachable through the code's writes to `quiz_progress`:
the fresh-row insert of `get_user_progress`, the counted update of
`update_user_progress`, and the `current_quiz_id` update of `start_quiz`. -/
inductive Reachable : ProgressTable → Prop where
  | init : Reachable []
  | getProgress (t : ProgressTable) (uid : String) :
      Reachable t → Reachable (get_user_progress t uid).2
  | update (t : ProgressTable) (uid : String) (quiz_id : Int) (is_correct : Bool) :
      Reachable t → Reachable (update_user_progress t uid quiz_id is_correct)
  | startQuiz (t : ProgressTable) (uid : String) (quiz_id : Int) :
      Reachable t → Reachable (updateRows t uid (fun p => { p with current_quiz_id := quiz_id }))

/-- Association-list lookup with default 0, reading the first matching key
(the dict access `message_counts.get(msg, 0)`). -/
def lookupD : List (String × Nat) → String → Nat
  | [], _ => 0
  | p :: rest, k => if p.1 = k then p.2 else lookupD rest k

/-- Keys of a counts list. -/
def keysOf (l : List (String × Nat)) : List String := l.map Prod.fst

/-- A concrete environment used to instantiate the universally quantified
theorems: one article with id 7, one quiz with id 1 and answer A, one user
with a pending quiz. -/
def envW : MsgEnv where
  userName := "名前"
  articles := [⟨7, "2025-01-01", "タイトル", "本文"⟩]
  quizzes := [⟨1, "問題", "い", "ろ", "は", "A", "解説"⟩]
  progress := [("u", ⟨1, 0, 0⟩)]
  llm := fun _ => .error "x"
  aiQuiz := none
  pick := 0

/-! ## Routing lemmas -/

theorem toUpper_eq_self_of_isDigit {c : Char} (h : c.isDigit = true) : c.toUpper = c := by
  simp only [Char.isDigit, ge_iff_le, Bool.and_eq_true, decide_eq_true_eq] at h
  have h2 : c.val.toNat ≤ 57 := h.2
  simp only [Char.toUpper, Char.toNat]
  rw [if_neg]
  omega

theorem map_toUpper_singleton {l : List Char} {c : Char} (h : l.map Char.toUpper = [c]) :
    ∃ d, l = [d] ∧ d.toUpper = c := by
  rcases l with _ | ⟨d, _ | ⟨e, t⟩⟩ <;> simp_all

theorem upper_mem_singleton {m : String}
    (h : pyUpper m ∈ (["A", "B", "C"] : List String)) :
    ∃ c, m.data = [c] ∧ (c.toUpper = 'A' ∨ c.toUpper = 'B' ∨ c.toUpper = 'C') := by
  simp only [List.mem_cons, List.not_mem_nil, or_false] at h
  rcases h with h | h | h
  · obtain ⟨d, hd, hu⟩ := map_toUpper_singleton (congrArg String.data h)
    exact ⟨d, hd, Or.inl hu⟩
  · obtain ⟨d, hd, hu⟩ := map_toUpper_singleton (congrArg String.data h)
    exact ⟨d, hd, Or.inr (Or.inl hu)⟩
  · obtain ⟨d, hd, hu⟩ := map_toUpper_singleton (congrArg String.data h)
    exact ⟨d, hd, Or.inr (Or.inr hu)⟩

theorem startsWith_prefix {s p : String} (h : pyStartsWith s p = true) :
    p.data <+: s.data :=
  List.isPrefixOf_iff_prefix.mp h

theorem not_digit_of_upper_mem {m : String}
    (h : pyUpper m ∈ (["A", "B", "C"] : List String)) : pyIsDigit m = false := by
  obtain ⟨c, hd, hu⟩ := upper_mem_singleton h
  cases hc : pyIsDigit m
  · rfl
  · simp only [pyIsDigit, hd, Bool.and_eq_true, List.all_cons, List.all_nil,
      Bool.and_true, List.isEmpty_cons, Bool.not_false] at hc
    have he := toUpper_eq_self_of_isDigit hc.2
    rw [he] at hu
    rcases hu with rfl | rfl | rfl <;> exact absurd hc.2 (by decide)

theorem not_startsWith_kiji_of_digit {m : String} (h : pyIsDigit m = true) :
    pyStartsWith m "#記事" = false := by
  cases hs : pyStartsWith m "#記事"
  · rfl
  · obtain ⟨t, ht⟩ := startsWith_prefix hs
    have he : m.data = '#' :: '記' :: '事' :: t := by rw [← ht]; rfl
    simp only [pyIsDigit, he, Bool.and_eq_true, List.all_cons] at h
    exact absurd h.2.1 (by decide)

theorem not_startsWith_kiji_of_upper_mem {m : String}
    (h : pyUpper m ∈ (["A", "B", "C"] : List String)) :
    pyStartsWith m "#記事" = false := by
  obtain ⟨c, hd, -⟩ := upper_mem_singleton h
  cases hs : pyStartsWith m "#記事"
  · rfl
  · obtain ⟨t, ht⟩ := startsWith_prefix hs
    rw [hd] at ht
    have := congrArg List.length ht
    simp at this

/-- C1: every inbound text message is classified into exactly one of the
seven conversational modes of `handle_message`, and each mode fires exactly
on its source condition: quiz start on the exact string `#クイズ`, quiz
answer when the uppercased message is A, B or C, article list on
`#開発日記`, the calorie-search prompt on `#カロリー`, article detail on a
`#記事` prefix, article-or-calorie on all-digit messages, and free-text
calorie lookup on everything else; the branches are mutually exclusive
(each `route` value is an `iff` with its raw condition) and exhaustive
(`route` is total). -/
theorem routing_modes (m : String) :
    (route m = Mode.quizStart ↔ m = "#クイズ") ∧
    (route m = Mode.quizAnswer ↔ pyUpper m ∈ (["A", "B", "C"] : List String)) ∧
    (route m = Mode.articleList ↔ m = "#開発日記") ∧
    (route m = Mode.caloriePrompt ↔ m = "#カロリー") ∧
    (route m = Mode.articleDetail ↔ pyStartsWith m "#記事" = true) ∧
    (route m = Mode.articleOrCalorie ↔ pyIsDigit m = true) ∧
    (route m = Mode.freeText ↔
      (m ≠ "#クイズ" ∧ pyUpper m ∉ (["A", "B", "C"] : List String) ∧ m ≠ "#開発日記" ∧
        m ≠ "#カロリー" ∧ pyStartsWith m "#記事" = false ∧ pyIsDigit m = false)) := by
  by_cases h1 : m = "#クイズ"
  · subst h1; decide
  by_cases h2 : pyUpper m ∈ (["A", "B", "C"] : List String)
  · have hr : route m = Mode.quizAnswer := by simp [route, h1, h2]
    have l3 : m ≠ "#開発日記" := by rintro rfl; exact absurd h2 (by decide)
    have l4 : m ≠ "#カロリー" := by rintro rfl; exact absurd h2 (by decide)
    have l5 := not_startsWith_kiji_of_upper_mem h2
    have l6 := not_digit_of_upper_mem h2
    simp [hr, h1, h2, l3, l4, l5, l6]
  by_cases h3 : m = "#開発日記"
  · subst h3; decide
  by_cases h4 : m = "#カロリー"
  · subst h4; decide
  cases h5 : pyStartsWith m "#記事"
  · cases h6 : pyIsDigit m
    · have hr : route m = Mode.freeText := by simp [route, h1, h2, h3, h4, h5, h6]
      simp [hr, h1, h2, h3, h4, h5, h6]
    · have hr : route m = Mode.articleOrCalorie := by simp [route, h1, h2, h3, h4, h5, h6]
      simp [hr, h1, h2, h3, h4, h5, h6]
  · have hr : route m = Mode.articleDetail := by simp [route, h1, h2, h3, h4, h5]
    have l6 : pyIsDigit m = false := by
      cases hd : pyIsDigit m
      · rfl
      · have := not_startsWith_kiji_of_digit hd
        rw [h5] at this
        exact absurd this (by decide)
    simp [hr, h1, h2, h3, h4, h5, l6]

/-- C2 counterexample: `#クイズ2` starts with the recognized command
`#クイズ` yet is routed to the free-text calorie branch, not the quiz-start
flow, because the router compares that command with `==`, not a prefix
test. -/
theorem routing_prefix_cx :
    pyStartsWith "#クイズ2" "#クイズ" = true ∧ route "#クイズ2" = Mode.freeText ∧
      route "#クイズ2" ≠ Mode.quizStart := by decide

/-- C2 (amended): the commands `#クイズ`, `#開発日記` and `#カロリー`
dispatch their flows only on exact string equality, while `#記事` alone is
dispatched by string prefix, regardless of trailing text. -/
theorem routing_dispatch (m : String) :
    (m = "#クイズ" → route m = Mode.quizStart) ∧
    (m = "#開発日記" → route m = Mode.articleList) ∧
    (m = "#カロリー" → route m = Mode.caloriePrompt) ∧
    (pyStartsWith m "#記事" = true → route m = Mode.articleDetail) := by
  refine ⟨?_, ?_, ?_, ?_⟩
  · rintro rfl; decide
  · rintro rfl; decide
  · rintro rfl; decide
  · intro h5
    have h1 : m ≠ "#クイズ" := by rintro rfl; exact absurd h5 (by decide)
    have h3 : m ≠ "#開発日記" := by rintro rfl; exact absurd h5 (by decide)
    have h4 : m ≠ "#カロリー" := by rintro rfl; exact absurd h5 (by decide)
    have h2 : pyUpper m ∉ (["A", "B", "C"] : List String) := by
      intro h2
      rw [not_startsWith_kiji_of_upper_mem h2] at h5
      exact absurd h5 (by decide)
    simp [route, h1, h2, h3, h4, h5]

/-- Witness for the amended C2 at concrete inputs: the exact command and a
`#記事` message with trailing text. -/
theorem routing_dispatch_witness :
    route "#クイズ" = Mode.quizStart ∧ route "#記事12" = Mode.articleDetail :=
  ⟨(routing_dispatch "#クイズ").1 rfl, (routing_dispatch "#記事12").2.2.2 (by decide)⟩

theorem route_digit {m : String} (h : pyIsDigit m = true) :
    route m = Mode.articleOrCalorie := by
  have h1 : m ≠ "#クイズ" := by rintro rfl; exact absurd h (by decide)
  have h3 : m ≠ "#開発日記" := by rintro rfl; exact absurd h (by decide)
  have h4 : m ≠ "#カロリー" := by rintro rfl; exact absurd h (by decide)
  have h2 : pyUpper m ∉ (["A", "B", "C"] : List String) := by
    intro h2
    rw [not_digit_of_upper_mem h2] at h
    exact absurd h (by decide)
  have h5 := not_startsWith_kiji_of_digit h
  simp [route, h1, h2, h3, h4, h5, h]

/-- C6: on every incoming message, whatever branch it takes, the effect
trace of `handle_message` starts with the profile fetch followed
immediately by the append to the message log carrying the display name,
user id and message text; no other log append and no mode-specific effect
(database access, LLM call, reply) precedes or duplicates it. -/
theorem log_first (env : MsgEnv) (uid m : String) :
    ∃ rest, (handle_message env uid m).1 =
        Effect.getProfile uid :: Effect.log env.userName uid m :: rest ∧
      ∀ e ∈ rest, e.isLog = false := by
  unfold handle_message
  cases hr : route m <;> simp only [hr]
  · exact ⟨_, rfl, by simp [Effect.isLog]⟩
  · rcases hca : check_answer env.quizzes env.progress uid m with _ | ⟨txt, flag, t2⟩ <;>
      simp only [hca]
    · exact ⟨_, rfl, by simp [Effect.isLog]⟩
    · exact ⟨_, rfl, by simp [Effect.isLog]⟩
  · exact ⟨_, rfl, by simp [Effect.isLog]⟩
  · exact ⟨_, rfl, by simp [Effect.isLog]⟩
  · exact ⟨_, rfl, by simp [Effect.isLog]⟩
  · rcases ha : get_article_detail env.articles (strToInt m) with _ | a <;> simp only [ha]
    · exact ⟨_, rfl, by simp [Effect.isLog]⟩
    · exact ⟨_, rfl, by simp [Effect.isLog]⟩
  · exact ⟨_, rfl, by simp [Effect.isLog]⟩

/-- C9: for an all-digit message, `handle_message` first tries the article
lookup with the number as article id; when an article exists it is the
reply and no LLM call is made, and the calorie lookup on the digit string
is invoked only when no such article exists. -/
theorem digit_shadow (env : MsgEnv) (uid m : String) (h : pyIsDigit m = true) :
    (∀ a, get_article_detail env.articles (strToInt m) = some a →
        (handle_message env uid m).2 = some (a, env.progress) ∧
          Effect.llmCall m ∉ (handle_message env uid m).1) ∧
    (get_article_detail env.articles (strToInt m) = none →
        (handle_message env uid m).2 = some (get_calorie_info (env.llm m), env.progress)) := by
  have hr := route_digit h
  constructor
  · intro a ha
    unfold handle_message
    rw [hr, ha]
    exact ⟨rfl, by simp⟩
  · intro ha
    unfold handle_message
    rw [hr, ha]

/-- Witness for C9: in `envW` the message `"7"` hits the stored article
with id 7 and no LLM call appears in the trace. -/
theorem digit_shadow_witness :
    (handle_message envW "u" "7").2 =
        some ("📝 タイトル\n📅 2025-01-01\n\n本文", envW.progress) ∧
      Effect.llmCall "7" ∉ (handle_message envW "u" "7").1 :=
  (digit_shadow envW "u" "7" (by decide)).1 "📝 タイトル\n📅 2025-01-01\n\n本文" (by decide)

/-! ## Calorie suffix lemmas -/

theorem dropWhile_cons_false {p : Char → Bool} {c : Char} {l : List Char}
    (h : p c = false) : (c :: l).dropWhile p = c :: l := by
  simp [List.dropWhile_cons, h]

theorem rstrip_snoc {l : List Char} {c : Char} (hc : pyIsSpace c = false) :
    ((l ++ [c]).reverse.dropWhile pyIsSpace).reverse = l ++ [c] := by
  rw [List.reverse_append]
  simp only [List.reverse_cons, List.reverse_nil, List.nil_append, List.singleton_append]
  rw [dropWhile_cons_false hc]
  simp

theorem pyRstrip_append_tag (x : String) :
    pyRstrip (x ++ "\n\nHave a nice calory!") = x ++ "\n\nHave a nice calory!" := by
  have hsplit : ("\n\nHave a nice calory!" : String).data =
      ("\n\nHave a nice calory" : String).data ++ ['!'] := by decide
  have hdata : (x ++ "\n\nHave a nice calory!").data =
      (x.data ++ ("\n\nHave a nice calory" : String).data) ++ ['!'] := by
    rw [String.data_append, hsplit, List.append_assoc]
  show String.mk _ = _
  rw [hdata, rstrip_snoc (by decide)]
  rw [List.append_assoc, ← hsplit, ← String.data_append]

theorem endsWith_append_tag (x : String) :
    pyEndsWith (x ++ "\n\nHave a nice calory!") "Have a nice calory!" = true := by
  unfold pyEndsWith
  rw [List.isSuffixOf_iff_suffix]
  refine ⟨x.data ++ ['\n', '\n'], ?_⟩
  rw [String.data_append]
  rw [show ("\n\nHave a nice calory!" : String).data =
      ['\n', '\n'] ++ ("Have a nice calory!" : String).data from by decide]
  rw [List.append_assoc]

/-- C8 counterexample: on the successful response `"Have a nice calory!\n"`
(whose right-stripped form already ends with the tag) `get_calorie_info`
returns the response unchanged, and the returned string does not end with
`"Have a nice calory!"` — the claim that every successful result ends with
the tag is false when the response has trailing whitespace after the tag. -/
theorem calorie_suffix_cx :
    get_calorie_info (Except.ok "Have a nice calory!\n") = "Have a nice calory!\n" ∧
      pyEndsWith (get_calorie_info (Except.ok "Have a nice calory!\n"))
        "Have a nice calory!" = false := by decide

/-- C8 (amended): for every successful LLM response, the right-stripped
form of the returned string ends with `"Have a nice calory!"`, and the
appending logic never duplicates the suffix: a response whose right-stripped
form already ends with the tag is returned unchanged. -/
theorem calorie_suffix (s : String) :
    pyEndsWith (pyRstrip (get_calorie_info (Except.ok s))) "Have a nice calory!" = true ∧
    (pyEndsWith (pyRstrip s) "Have a nice calory!" = true →
      get_calorie_info (Except.ok s) = s) := by
  constructor
  · unfold get_calorie_info
    cases h : pyEndsWith (pyRstrip s) "Have a nice calory!"
    · simp only [h, Bool.false_eq_true, if_false]
      rw [pyRstrip_append_tag]
      exact endsWith_append_tag (pyRstrip s)
    · simp only [h, if_true]
  · intro h
    unfold get_calorie_info
    simp [h]

/-- Witness for C8 at a concrete already-tagged response. -/
theorem calorie_suffix_witness :
    get_calorie_info (Except.ok "蕎麦は低カロリー。Have a nice calory!") =
      "蕎麦は低カロリー。Have a nice calory!" :=
  (calorie_suffix "蕎麦は低カロリー。Have a nice calory!").2 (by decide)

/-! ## Webhook callback -/

/-- C5 counterexample: when a non-signature exception (such as the
`KeyError` of the quiz choice lookup) propagates through `handler.handle`,
the SDK has not raised an invalid-signature error and yet the endpoint does
not respond `OK` — it responds HTTP 500 — so the claim's "responds 'OK'
otherwise" is false at this outcome. -/
theorem callback_cx :
    callback (Except.error (HandlerError.other "KeyError")) = HttpResponse.status500 ∧
      callback (Except.error (HandlerError.other "KeyError")) ≠ HttpResponse.body "OK" ∧
      callback (Except.error (HandlerError.other "KeyError")) ≠ HttpResponse.status400 := by
  decide

/-- C5 (amended): the `/callback` endpoint responds HTTP 400 iff the SDK
raises an invalid-signature error for the request body and signature
header, responds `OK` iff `handler.handle` returns without raising, and
responds HTTP 500 iff any other exception propagates out of the handler. -/
theorem callback_verifies (r : Except HandlerError Unit) :
    (callback r = HttpResponse.status400 ↔
        ∃ e, r = Except.error (HandlerError.invalidSignature e)) ∧
    (callback r = HttpResponse.body "OK" ↔ r = Except.ok ()) ∧
    (callback r = HttpResponse.status500 ↔
        ∃ s, r = Except.error (HandlerError.other s)) := by
  rcases r with e | u
  · rcases e with e | s <;> simp [callback]
  · rcases u
    simp [callback]

/-! ## Progress-table lemmas -/

theorem getRow_updateRows (t : ProgressTable) (uid : String)
    (f : ProgressRecord → ProgressRecord) :
    getRow (updateRows t uid f) uid = (getRow t uid).map f := by
  induction t with
  | nil => rfl
  | cons r rest ih =>
      by_cases h : r.1 = uid
      · simp [updateRows, getRow, h]
      · simp [updateRows, getRow, h, ih]

theorem getRow_eq_some_mem {t : ProgressTable} {uid : String} {p : ProgressRecord}
    (h : getRow t uid = some p) : (uid, p) ∈ t := by
  induction t with
  | nil => simp [getRow] at h
  | cons r rest ih =>
      by_cases hb : r.1 = uid
      · simp only [getRow, hb, if_true, Option.some.injEq] at h
        rw [← hb, ← h]
        exact List.mem_cons_self r rest
      · simp only [getRow, hb, if_false] at h
        exact List.mem_cons_of_mem r (ih h)

theorem mem_updateRows {t : ProgressTable} {uid : String}
    {f : ProgressRecord → ProgressRecord} {x : String × ProgressRecord}
    (h : x ∈ updateRows t uid f) :
    x ∈ t ∨ ∃ y ∈ t, y.1 = uid ∧ x = (y.1, f y.2) := by
  induction t with
  | nil => simp [updateRows] at h
  | cons r rest ih =>
      rcases List.mem_cons.mp h with he | hm
      · by_cases hb : r.1 = uid
        · rw [if_pos hb] at he
          exact Or.inr ⟨r, List.mem_cons_self r rest, hb, he⟩
        · rw [if_neg hb] at he
          exact Or.inl (he ▸ List.mem_cons_self r rest)
      · rcases ih hm with hm2 | ⟨y, hy, hyu, he⟩
        · exact Or.inl (List.mem_cons_of_mem r hm2)
        · exact Or.inr ⟨y, List.mem_cons_of_mem r hy, hyu, he⟩

/-- C10: the invariant `0 ≤ correct_count ≤ total_count` holds for every
row of every progress table reachable through the code's writes: fresh rows
are created all-zero, `update_user_progress` adds exactly 1 to
`total_count` and at most 1 to `correct_count`, and `start_quiz` leaves the
counters untouched. -/
theorem progress_invariant (t : ProgressTable) (h : Reachable t) :
    ∀ uid p, (uid, p) ∈ t → 0 ≤ p.correct_count ∧ p.correct_count ≤ p.total_count := by
  induction h with
  | init => intro uid p hp; simp at hp
  | getProgress t uid ht ih =>
      intro u p hp
      unfold get_user_progress at hp
      rcases hg : getRow t uid with _ | q
      · rw [hg] at hp
        rcases List.mem_append.mp hp with hm | hm
        · exact ih u p hm
        · simp at hm
          rw [hm.2]
          exact ⟨le_refl 0, le_refl 0⟩
      · rw [hg] at hp
        exact ih u p hp
  | update t uid qid b ht ih =>
      intro u p hp
      unfold update_user_progress get_user_progress at hp
      rcases hg : getRow t uid with _ | p0
      · rw [hg] at hp
        rcases mem_updateRows hp with hm | ⟨y, hy, hyu, he⟩
        · rcases List.mem_append.mp hm with hm2 | hm2
          · exact ih u p hm2
          · simp at hm2
            rw [hm2.2]
            exact ⟨le_refl 0, le_refl 0⟩
        · have hpe : p = (⟨qid, (0 : Int) + (if b then 1 else 0), (0 : Int) + 1⟩ :
              ProgressRecord) := congrArg Prod.snd he
          rw [hpe]
          cases b <;> simp
      · rw [hg] at hp
        rcases mem_updateRows hp with hm | ⟨y, hy, hyu, he⟩
        · exact ih u p hm
        · have hp0 := ih uid p0 (getRow_eq_some_mem hg)
          have hpe : p = (⟨qid, p0.correct_count + (if b then 1 else 0),
              p0.total_count + 1⟩ : ProgressRecord) := congrArg Prod.snd he
          rw [hpe]
          cases b <;> simp <;> omega
  | startQuiz t uid qid ht ih =>
      intro u p hp
      rcases mem_updateRows hp with hm | ⟨y, hy, hyu, he⟩
      · exact ih u p hm
      · have hy2 := ih y.1 y.2 hy
        have hpe : p = ({ y.2 with current_quiz_id := qid } : ProgressRecord) :=
          congrArg Prod.snd he
        rw [hpe]
        exact hy2

/-- Witness for C10 on the table reached by one counted update from the
empty table. -/
theorem progress_invariant_witness :
    (0 : Int) ≤ (⟨0, 1, 1⟩ : ProgressRecord).correct_count ∧
      (⟨0, 1, 1⟩ : ProgressRecord).correct_count ≤ (⟨0, 1, 1⟩ : ProgressRecord).total_count :=
  progress_invariant (update_user_progress [] "u" 0 true)
    (Reachable.update [] "u" 0 true Reachable.init) "u" ⟨0, 1, 1⟩ (by decide)


theorem update_user_progress_row {t : ProgressTable} {uid : String} {p : ProgressRecord}
    (h : getRow t uid = some p) (qid : Int) (b : Bool) :
    getRow (update_user_progress t uid qid b) uid =
      some ⟨qid, p.correct_count + (if b then 1 else 0), p.total_count + 1⟩ := by
  simp [update_user_progress, get_user_progress, h, getRow_updateRows]

/-- C7 (amended): with a stored progress row, `check_answer` leaves the
table unchanged and returns a start-a-quiz prompt with flag `false` when
the stored `current_quiz_id` is 0 or no quiz with that id exists;
otherwise the counters step as claimed — and the result text with flag
`true` is returned when the answer is correct or the stored
`correct_answer` is one of A, B, C: the user's row afterwards has
`total_count` increased by exactly 1, `correct_count` increased by 1 iff
the uppercased answer equals the quiz's `correct_answer`, and
`current_quiz_id` reset to 0. For a wrong answer against a quiz whose
lowercased `correct_answer` names none of the three choices, the choice
lookup raises `KeyError` and no result is returned at all (fourth
conjunct, `= none`). -/
theorem check_answer_spec (quizzes : List Quiz) (t : ProgressTable) (uid ans : String)
    (p : ProgressRecord) (h : getRow t uid = some p) :
    (p.current_quiz_id = 0 →
        check_answer quizzes t uid ans =
          some ("まだクイズに挑戦していません。「#クイズ」と送ってね！", false, t)) ∧
    (p.current_quiz_id ≠ 0 → get_quiz quizzes p.current_quiz_id = none →
        check_answer quizzes t uid ans =
          some ("クイズが見つかりませんでした。「#クイズ」で新しい問題に挑戦！", false, t)) ∧
    (∀ q, p.current_quiz_id ≠ 0 → get_quiz quizzes p.current_quiz_id = some q →
        (pyUpper ans = q.correct_answer ∨
          q.correct_answer ∈ (["A", "B", "C"] : List String)) →
        ∃ txt t2, check_answer quizzes t uid ans = some (txt, true, t2) ∧
          getRow t2 uid = some ⟨0,
            p.correct_count + (if pyUpper ans = q.correct_answer then 1 else 0),
            p.total_count + 1⟩) ∧
    (∀ q, p.current_quiz_id ≠ 0 → get_quiz quizzes p.current_quiz_id = some q →
        pyUpper ans ≠ q.correct_answer →
        pyLower q.correct_answer ∉ (["a", "b", "c"] : List String) →
        check_answer quizzes t uid ans = none) := by
  have hup : get_user_progress t uid = (p, t) := by simp [get_user_progress, h]
  refine ⟨?_, ?_, ?_, ?_⟩
  · intro h0
    simp [check_answer, hup, h0]
  · intro h0 hq
    simp [check_answer, hup, h0, hq]
  · intro q h0 hq hok
    cases hb : pyUpper ans == q.correct_answer
    · have hne : pyUpper ans ≠ q.correct_answer := by
        intro he; rw [he] at hb; simp at hb
      have hmem : q.correct_answer ∈ (["A", "B", "C"] : List String) := by
        rcases hok with hok | hok
        · exact absurd hok hne
        · exact hok
      have hrow2 := update_user_progress_row h 0 false
      have hup2 : get_user_progress (update_user_progress t uid 0 false) uid =
          (⟨0, p.correct_count, p.total_count + 1⟩, update_user_progress t uid 0 false) := by
        simp only [get_user_progress]
        rw [hrow2]
        simp
      simp only [List.mem_cons, List.not_mem_nil, or_false] at hmem
      rcases hmem with hA | hA | hA
      · rw [hA] at hb hne
        have hca : check_answer quizzes t uid ans =
            some ("❌ 残念！正解は " ++ q.correct_answer ++ ". " ++ q.choice_a ++ "\n\n"
                ++ q.explanation ++ statsLine ⟨0, p.correct_count, p.total_count + 1⟩,
              true, update_user_progress t uid 0 false) := by
          simp [check_answer, hup, h0, hq, hb, hne, hup2, hA, choiceFor,
            show pyLower "A" = "a" from by decide]
        exact ⟨_, _, hca, by rw [hrow2]; simp [hA, hne]⟩
      · rw [hA] at hb hne
        have hca : check_answer quizzes t uid ans =
            some ("❌ 残念！正解は " ++ q.correct_answer ++ ". " ++ q.choice_b ++ "\n\n"
                ++ q.explanation ++ statsLine ⟨0, p.correct_count, p.total_count + 1⟩,
              true, update_user_progress t uid 0 false) := by
          simp [check_answer, hup, h0, hq, hb, hne, hup2, hA, choiceFor,
            show pyLower "B" = "b" from by decide]
        exact ⟨_, _, hca, by rw [hrow2]; simp [hA, hne]⟩
      · rw [hA] at hb hne
        have hca : check_answer quizzes t uid ans =
            some ("❌ 残念！正解は " ++ q.correct_answer ++ ". " ++ q.choice_c ++ "\n\n"
                ++ q.explanation ++ statsLine ⟨0, p.correct_count, p.total_count + 1⟩,
              true, update_user_progress t uid 0 false) := by
          simp [check_answer, hup, h0, hq, hb, hne, hup2, hA, choiceFor,
            show pyLower "C" = "c" from by decide]
        exact ⟨_, _, hca, by rw [hrow2]; simp [hA, hne]⟩
    · have hbe : pyUpper ans = q.correct_answer := beq_iff_eq.mp hb
      have hrow2 := update_user_progress_row h 0 true
      have hup2 : get_user_progress (update_user_progress t uid 0 true) uid =
          (⟨0, p.correct_count + 1, p.total_count + 1⟩, update_user_progress t uid 0 true) := by
        simp only [get_user_progress]
        rw [hrow2]
        simp
      have hca : check_answer quizzes t uid ans =
          some ("⭕ 正解！\n\n" ++ q.explanation
              ++ statsLine ⟨0, p.correct_count + 1, p.total_count + 1⟩,
            true, update_user_progress t uid 0 true) := by
        simp [check_answer, hup, h0, hq, hb, hup2]
      exact ⟨_, _, hca, by rw [hrow2]; simp [hbe]⟩
  · intro q h0 hq hne hmem
    have hb : (pyUpper ans == q.correct_answer) = false := beq_eq_false_iff_ne.mpr hne
    have hrow2 := update_user_progress_row h 0 false
    have hup2 : get_user_progress (update_user_progress t uid 0 false) uid =
        (⟨0, p.correct_count, p.total_count + 1⟩, update_user_progress t uid 0 false) := by
      simp only [get_user_progress]
      rw [hrow2]
      simp
    simp only [List.mem_cons, List.not_mem_nil, or_false, not_or] at hmem
    simp [check_answer, hup, h0, hq, hb, hup2, choiceFor, hmem.1, hmem.2.1, hmem.2.2]

/-- C7 counterexample: a stored quiz whose `correct_answer` is `D` with a
pending progress row and the wrong answer `A`: the quiz exists and
`current_quiz_id` is not 0, yet `check_answer` returns no result at all
(the choice lookup `quiz["choice_d"]` raises `KeyError`, modelled `none`),
refuting the claim that a result text with flag `True` is returned in
every such case. -/
theorem check_answer_cx :
    getRow [("u", (⟨1, 0, 0⟩ : ProgressRecord))] "u" = some ⟨1, 0, 0⟩ ∧
      (⟨1, 0, 0⟩ : ProgressRecord).current_quiz_id ≠ 0 ∧
      get_quiz [⟨1, "問題", "い", "ろ", "は", "D", "解説"⟩] 1 =
        some ⟨1, "問題", "い", "ろ", "は", "D", "解説"⟩ ∧
      check_answer [⟨1, "問題", "い", "ろ", "は", "D", "解説"⟩]
        [("u", ⟨1, 0, 0⟩)] "u" "A" = none := by
  decide

/-- Witness for C7: a correct answer on a pending quiz moves the stored
counters from 0/0 to 1/1. -/
theorem check_answer_spec_witness :
    ∃ txt t2, check_answer [⟨1, "問題", "い", "ろ", "は", "A", "解説"⟩]
        [("u", ⟨1, 0, 0⟩)] "u" "a" = some (txt, true, t2) ∧
      getRow t2 "u" = some ⟨0, 1, 1⟩ := by
  obtain ⟨txt, t2, h1, h2⟩ :=
    (check_answer_spec [⟨1, "問題", "い", "ろ", "は", "A", "解説"⟩]
        [("u", ⟨1, 0, 0⟩)] "u" "a" ⟨1, 0, 0⟩ (by decide)).2.2.1
      ⟨1, "問題", "い", "ろ", "は", "A", "解説"⟩ (by decide) (by decide)
      (Or.inl (by decide))
  exact ⟨txt, t2, h1, by simpa [show pyUpper "a" = "A" from by decide] using h2⟩

/-! ## Article lemmas -/

theorem string_foldl_append (l : List String) (acc : String) :
    l.foldl (fun r s => r ++ s) acc = acc ++ String.join l := by
  induction l generalizing acc with
  | nil => simp [String.join]
  | cons a rest ih =>
      have hj : String.join (a :: rest) = a ++ String.join rest := by
        show List.foldl (fun r s => r ++ s) "" (a :: rest) = _
        rw [List.foldl_cons, ih, String.empty_append]
      rw [List.foldl_cons, ih, hj, String.append_assoc]

theorem foldl_articleLine (l : List Article) (acc : String) :
    l.foldl (fun acc a => acc ++ articleLine a) acc = acc ++ String.join (l.map articleLine) := by
  induction l generalizing acc with
  | nil => simp [String.join]
  | cons a rest ih =>
      rw [List.foldl_cons, ih, List.map_cons]
      have hj : String.join (articleLine a :: rest.map articleLine) =
          articleLine a ++ String.join (rest.map articleLine) := by
        show List.foldl (fun r s => r ++ s) "" _ = _
        rw [List.foldl_cons, string_foldl_append, String.empty_append]
      rw [hj, String.append_assoc]

/-- C4: article reading is a static list lookup. `get_article_detail`
returns `none` exactly when no loaded article has the requested id, and any
returned text is the formatted detail of an article with that id;
`get_article_list` returns the fixed empty-list message on an empty list
and otherwise renders exactly the last five articles (a suffix of the list
of length `min n 5`) in reversed order, i.e. most recent first. -/
theorem articles_spec (articles : List Article) (i : Int) :
    (get_article_detail articles i = none ↔ ∀ a ∈ articles, a.id ≠ i) ∧
    (∀ s, get_article_detail articles i = some s →
        ∃ a ∈ articles, a.id = i ∧ s = articleDetailText a) ∧
    (articles = [] → get_article_list articles = "まだ記事がありません。") ∧
    (articles ≠ [] → get_article_list articles =
        "📓 開発日記\n\n" ++
          String.join (((articles.drop (articles.length - 5)).reverse).map articleLine) ++
          "→ 番号を送ると詳細が見れます") ∧
    ((articles.drop (articles.length - 5)).length = min articles.length 5) ∧
    (articles.drop (articles.length - 5)) <:+ articles := by
  refine ⟨?_, ?_, ?_, ?_, ?_, ?_⟩
  · simp [get_article_detail, Option.map_eq_none', List.find?_eq_none]
  · intro s hs
    obtain ⟨a, ha, hfa⟩ := Option.map_eq_some'.mp hs
    have hmem := List.mem_of_find?_eq_some ha
    have hid : (a.id == i) = true := List.find?_some (p := fun a : Article => a.id == i) ha
    exact ⟨a, hmem, beq_iff_eq.mp hid, hfa.symm⟩
  · intro h
    simp [get_article_list, h]
  · intro h
    rw [get_article_list, if_neg (by simpa using h)]
    rw [foldl_articleLine]
  · rw [List.length_drop]
    omega
  · exact List.drop_suffix _ _

/-- Witness for C4: the one-article list renders its single line. -/
theorem articles_spec_witness :
    get_article_list [⟨7, "2025-01-01", "タイトル", "本文"⟩] =
      "📓 開発日記\n\n[7] 2025-01-01\nタイトル\n\n→ 番号を送ると詳細が見れます" :=
  ((articles_spec [⟨7, "2025-01-01", "タイトル", "本文"⟩] 0).2.2.2.1 (by decide)).trans
    (by decide)

/-! ## Daily summary lemmas -/
theorem lookupD_incr (l : List (String × Nat)) (m k : String) :
    lookupD (incr l m) k = lookupD l k + (if k = m then 1 else 0) := by
  induction l with
  | nil =>
      by_cases h : k = m
      · subst h; simp [incr, lookupD]
      · have hmk : ¬(m = k) := fun hh => h hh.symm
        simp [incr, lookupD, h, hmk]
  | cons p rest ih =>
      rcases p with ⟨a, b⟩
      by_cases h1 : a = m
      · subst h1
        by_cases h2 : a = k
        · subst h2; simp [incr, lookupD]
        · have hka : ¬(k = a) := fun hh => h2 hh.symm
          simp [incr, lookupD, h2, hka]
      · by_cases h2 : a = k
        · subst h2
          have hkm : ¬(a = m) := h1
          simp [incr, lookupD, h1, hkm]
        · simp [incr, lookupD, h1, h2, ih]

theorem lookupD_foldl_incr (msgs : List String) (acc : List (String × Nat)) (k : String) :
    lookupD (msgs.foldl incr acc) k = lookupD acc k + msgs.count k := by
  induction msgs generalizing acc with
  | nil => simp
  | cons m rest ih =>
      rw [List.foldl_cons, ih, lookupD_incr, List.count_cons]
      by_cases h : k = m
      · subst h; simp; omega
      · have hmk : ¬(m = k) := fun hh => h hh.symm
        simp [h, hmk]

theorem lookupD_message_counts (msgs : List String) (k : String) :
    lookupD (message_counts msgs) k = msgs.count k := by
  rw [message_counts, lookupD_foldl_incr]
  simp [lookupD]

theorem keysOf_incr (l : List (String × Nat)) (m : String) :
    keysOf (incr l m) = if m ∈ keysOf l then keysOf l else keysOf l ++ [m] := by
  induction l with
  | nil => simp [incr, keysOf]
  | cons p rest ih =>
      rcases p with ⟨a, b⟩
      by_cases h : a = m
      · subst h; simp [incr, keysOf]
      · have hma : ¬(m = a) := fun hh => h hh.symm
        by_cases hm : m ∈ keysOf rest
        · simp only [keysOf] at hm
          simp [incr, keysOf, h, hma, hm] at ih ⊢
          simp [ih, hm, hma]
        · simp only [keysOf] at hm
          simp [incr, keysOf, h, hma, hm] at ih ⊢
          simp [ih, hm, hma]

theorem nodup_keys_foldl_incr (msgs : List String) (acc : List (String × Nat))
    (h : (keysOf acc).Nodup) : (keysOf (msgs.foldl incr acc)).Nodup := by
  induction msgs generalizing acc with
  | nil => exact h
  | cons m rest ih =>
      rw [List.foldl_cons]
      apply ih
      rw [keysOf_incr]
      by_cases hm : m ∈ keysOf acc
      · simp [hm, h]
      · simp [hm, h, List.nodup_append]

theorem nodup_keys_message_counts (msgs : List String) :
    (keysOf (message_counts msgs)).Nodup :=
  nodup_keys_foldl_incr msgs [] (by simp [keysOf])

theorem mem_lookupD {l : List (String × Nat)} (hnd : (keysOf l).Nodup) {k : String}
    {v : Nat} (hm : (k, v) ∈ l) : lookupD l k = v := by
  induction l with
  | nil => simp at hm
  | cons p rest ih =>
      rcases p with ⟨a, b⟩
      rcases List.mem_cons.mp hm with he | hmem
      · cases he
        simp [lookupD]
      · by_cases h : a = k
        · exfalso
          have hk : k ∈ keysOf rest := List.mem_map_of_mem Prod.fst hmem
          rw [h] at hnd
          exact (List.nodup_cons.mp hnd).1 hk
        · simp only [lookupD, h, if_false]
          exact ih (List.nodup_cons.mp hnd).2 hmem

theorem lookupD_pos_mem {l : List (String × Nat)} {k : String} {v : Nat}
    (hv : lookupD l k = v) (hpos : 0 < v) : (k, v) ∈ l := by
  induction l with
  | nil => simp [lookupD] at hv; omega
  | cons p rest ih =>
      rcases p with ⟨a, b⟩
      by_cases h : a = k
      · subst h
        simp only [lookupD, if_pos rfl] at hv
        rw [← hv]
        exact List.mem_cons_self _ _
      · simp only [lookupD, h, if_false] at hv
        exact List.mem_cons_of_mem _ (ih hv)

theorem counts_correct (msgs : List String) :
    ∀ p ∈ message_counts msgs, p.2 = msgs.count p.1 := by
  intro p hp
  have h1 : lookupD (message_counts msgs) p.1 = p.2 :=
    mem_lookupD (nodup_keys_message_counts msgs) hp
  rw [← h1, lookupD_message_counts]

theorem counts_complete {msgs : List String} {m : String} (hm : m ∈ msgs) :
    (m, msgs.count m) ∈ message_counts msgs :=
  lookupD_pos_mem (lookupD_message_counts msgs m) (List.count_pos_iff.mpr hm)

theorem sorted_sortedCounts (msgs : List String) :
    List.Pairwise (fun a b : String × Nat => b.2 ≤ a.2) (sortedCounts msgs) := by
  haveI : IsTotal (String × Nat) (fun a b : String × Nat => b.2 ≤ a.2) :=
    ⟨fun a b => le_total b.2 a.2⟩
  haveI : IsTrans (String × Nat) (fun a b : String × Nat => b.2 ≤ a.2) :=
    ⟨fun a b c h1 h2 => le_trans h2 h1⟩
  exact List.sorted_insertionSort _ _

theorem mem_popularOf_counts {msgs : List String} {p : String × Nat}
    (hp : p ∈ popularOf msgs) : p ∈ message_counts msgs :=
  (List.perm_insertionSort _ _).mem_iff.mp (List.mem_of_mem_take hp)


/-- C3: on the log rows returned for today, `get_daily_summary` returns
the fixed no-usage string for an empty set, and otherwise a report built
from the total number of rows, the number of distinct user names
(`dedup` length equals the cardinality of the set of names), and the
`popular` list: at most 3 entries, sorted in descending order of their
occurrence counts, each entry carrying the true occurrence count of its
message, and no message outside the list has a higher count than any
listed entry. -/
theorem daily_summary_spec (logs : List LogEntry) :
    (logs = [] → get_daily_summary logs = "本日の利用はありませんでした。") ∧
    (logs ≠ [] → get_daily_summary logs =
        "📊 本日の利用状況\n\n利用回数: " ++ toString logs.length ++ "件\nユーザー数: "
          ++ toString ((logs.map LogEntry.user_name).dedup.length) ++ "人\n人気: "
          ++ String.intercalate "、"
              ((popularOf (logs.map LogEntry.message)).map popularItemText)) ∧
    ((logs.map LogEntry.user_name).dedup.length =
        (logs.map LogEntry.user_name).toFinset.card) ∧
    ((popularOf (logs.map LogEntry.message)).length ≤ 3) ∧
    (List.Pairwise (fun a b : String × Nat => b.2 ≤ a.2)
        (popularOf (logs.map LogEntry.message))) ∧
    (∀ p ∈ popularOf (logs.map LogEntry.message),
        p.2 = (logs.map LogEntry.message).count p.1) ∧
    (∀ m ∈ logs.map LogEntry.message,
        (∀ p ∈ popularOf (logs.map LogEntry.message), p.1 ≠ m) →
        ∀ p ∈ popularOf (logs.map LogEntry.message),
          (logs.map LogEntry.message).count m ≤ p.2) := by
  refine ⟨?_, ?_, ?_, ?_, ?_, ?_, ?_⟩
  · intro h
    simp [get_daily_summary, h]
  · intro h
    rw [get_daily_summary, if_neg (by simpa using h)]
  · exact (List.card_toFinset _).symm
  · rw [popularOf, List.length_take]
    omega
  · exact (sorted_sortedCounts _).sublist (List.take_sublist 3 _)
  · intro p hp
    exact counts_correct _ p (mem_popularOf_counts hp)
  · intro m hm hknot p hp
    have hmem : (m, (logs.map LogEntry.message).count m) ∈
        sortedCounts (logs.map LogEntry.message) :=
      (List.perm_insertionSort _ _).mem_iff.mpr (counts_complete hm)
    have hsplit := List.take_append_drop 3 (sortedCounts (logs.map LogEntry.message))
    rw [← hsplit] at hmem
    rcases List.mem_append.mp hmem with h1 | h2
    · exact absurd rfl (hknot _ h1)
    · have hpw := sorted_sortedCounts (logs.map LogEntry.message)
      rw [← hsplit] at hpw
      exact (List.pairwise_append.mp hpw).2.2 p hp _ h2

/-- Witness for C3 on a one-entry log. -/
theorem daily_summary_spec_witness :
    get_daily_summary [⟨"u", "m"⟩] =
      "📊 本日の利用状況\n\n利用回数: 1件\nユーザー数: 1人\n人気: m(1件)" :=
  ((daily_summary_spec [⟨"u", "m"⟩]).2.1 (by decide)).trans (by decide)

end CaloryBot
